import Mathlib

/-!
Shallow embedding of the `gobble` parser-combinator library
(`src/gobble/parser.py` and its tests) for checking the repository's
natural-language specification.

* A source is a list of characters; an index is a `Nat`.
* A parser step function maps `(source, index)` to a `PResult`:
  success `(value, newIndex)`, a raised `ParseError`, or `.div`
  (the invocation does not produce a result at all: the underlying
  Python code diverges or raises a non-`ParseError` exception such as
  `IndexError`; this outcome propagates through every combinator and
  is never caught).
* Python values flowing through parsers are dynamically typed; they are
  embedded in the universal type `Value`.
* The `parser` decorator (generator-driven sequencing) is embedded as
  the tree type `Gen`: `yield p` with a success continuation and a
  failure handler (the handler is `reraise` when the generator does not
  wrap the yield in a `try`/`except ParseError`), `stop` for a `return`,
  and `raiseE` for a `raise ParseError` inside the generator body.
  `runGen` is the `parse_group` driver: on success of a yielded step it
  resumes the continuation at the new index, on a `ParseError` it resumes
  the handler at the unchanged index.
-/

namespace Gobble

abbrev Source := List Char

/-- A `(line, column)` pair, both 1-indexed. -/
abbrev Loc := Nat × Nat

/-- Naive model of Python `repr` for the quote-free strings that appear in
this development: wrap in single quotes (`'{0!r}'.format(value)`). -/
def pyRepr (s : String) : String := "'" ++ s ++ "'"

/-- One step of the location scan: a newline element opens the next line at
column 1 (the newline itself is reported as that column); any other element
advances the column. -/
def locStep : Loc → Char → Loc :=
  fun st c => if c = '\n' then (st.1 + 1, 1) else (st.1, st.2 + 1)

/-- Scan a prefix of the source, starting from line 1, column 0. -/
def locScan (cs : List Char) : Loc := cs.foldl locStep (1, 0)

/-- Number of lines of the source, as Python's `str.splitlines` counts them:
one per newline, plus one for a nonempty trailing segment. -/
def lineCount (src : Source) : Nat :=
  (src.filter (fun c => c = '\n')).length +
    (if src = [] ∨ src.getLast? = some '\n' then 0 else 1)

/-- Modelled from the spec: the location resolver `compute_location` of
module `gobble.location`, whose source file is not present under `src/`
(only its tests are). It maps an absolute offset in `[0, length]` to a
1-indexed `(line, column)` pair. The spec's §3 formula ("one newline
strictly before the index per line bump") contradicts the repository's own
tests in `src/tests/test_compute_location.py`, so this model follows the
tests and the spec's §8 examples: the element at the index itself is
included in the scan, a newline element is reported as column 1 of the
line it opens, and the end-of-input index maps to one past the line count,
at column 1. The model reproduces all eight test points of
`test_compute_location.py`. -/
def computeLocation (src : Source) (index : Nat) : Loc :=
  if index = src.length then (lineCount src + 1, 1)
  else locScan (src.take (index + 1))

/-- The location rule exactly as the specification sentence states it
("line counts are bumped once per newline element strictly before the
index; column counts elements since the last newline (or start) plus
one"), kept for comparison with `computeLocation`. -/
def resolveClaimFormula (src : Source) (index : Nat) : Loc :=
  (1 + ((src.take index).filter (fun c => c = '\n')).length,
   ((src.take index).reverse.takeWhile (fun c => c ≠ '\n')).length + 1)

/-- Universal type for the dynamically-typed Python values produced by
parsers: characters, naturals (indices), pairs (locations), lists
(repetition results), strings (literal results) and `None`. -/
inductive Value where
  | char : Char → Value
  | nat : Nat → Value
  | pair : Value → Value → Value
  | list : List Value → Value
  | str : String → Value
  | null : Value

/-- `ParseError(location, message)`. -/
structure PError where
  location : Loc
  message : String
deriving DecidableEq

/-- Outcome of one invocation of a parser step function. -/
inductive PResult where
  | ok : Value → Nat → PResult
  | err : PError → PResult
  | div : PResult

/-- The underlying step function of a parser:
`(source, index) -> (value, new_index) | ParseError`. -/
abbrev ParserFn := Source → Nat → PResult

/-- `Parser`: a step function together with its display name
(`parse.__name__`, used only in diagnostics). -/
structure Parser where
  parse : ParserFn
  pname : String

/-- Result of `Parser.execute`: the parsed value, a raised `ParseError`,
or a non-returning run. -/
inductive ExecResult where
  | value : Value → ExecResult
  | raised : PError → ExecResult
  | div : ExecResult

/-- Message of the residue error raised by `execute`:
`'Partial parse, residue is {0!r}'.format(source[final_index:])`. -/
def residueMessage (src : Source) (finalIndex : Nat) : String :=
  "Partial parse, residue is " ++ pyRepr (String.mk (src.drop finalIndex))

/-- `Parser.execute`: run on source at index 0, forbidding residue. -/
def execute (p : Parser) (src : Source) : ExecResult :=
  match p.parse src 0 with
  | .ok v finalIndex =>
    if finalIndex = src.length then .value v
    else .raised ⟨computeLocation src finalIndex, residueMessage src finalIndex⟩
  | .err e => .raised e
  | .div => .div

/-- A generator body as consumed by `parse_group`: a tree of yielded
sub-parsers.  `yield p k h` runs `p`, feeding a success value to `k`
(`iterator.send`) and a `ParseError` to `h` (`iterator.throw`); `stop v`
is `return v` (`StopIteration`); `raiseE e` is an uncaught
`raise ParseError` inside the generator body. -/
inductive Gen where
  | stop : Value → Gen
  | raiseE : PError → Gen
  | yield : ParserFn → (Value → Gen) → (PError → Gen) → Gen

/-- Failure handler of a yield that the generator does not wrap in
`try`/`except ParseError`: the error is re-raised unchanged. -/
def reraise : PError → Gen := .raiseE

/-- The driver loop of the `parser` decorator (`parse_group`): on success
of the yielded step the continuation resumes at the new index; on a
`ParseError` the handler resumes at the unchanged index (a failed step
never rebinds `index`); `.div` propagates. -/
def runGen (src : Source) : Gen → Nat → PResult
  | .stop v, i => .ok v i
  | .raiseE e, _ => .err e
  | .yield p k h, i =>
    match p src i with
    | .ok v j => runGen src (k v) j
    | .err e => runGen src (h e) i
    | .div => .div

/-- The `parser` decorator: wrap a generator body as a step function. -/
def parserOf (g : Gen) : ParserFn := fun src i => runGen src g i

/-- Encode a location tuple as a dynamic value. -/
def encodeLoc (l : Loc) : Value := .pair (.nat l.1) (.nat l.2)

/-- Decode a location tuple from a dynamic value (total: parsers only ever
hand `encodeLoc` images to it). -/
def decodeLoc : Value → Loc
  | .pair (.nat a) (.nat b) => (a, b)
  | _ => (0, 0)

/-- `_parse_location`: return the current location without consuming. -/
def locationFn : ParserFn := fun src i => .ok (encodeLoc (computeLocation src i)) i

/-- The `location` parser value. -/
def location : Parser := ⟨locationFn, "<location>"⟩

/-- `_parse_index`: return the current index without consuming (the source
argument is ignored). -/
def indexFn : ParserFn := fun _ i => .ok (.nat i) i

/-- The `_index` parser value (yielded by `_replicated` around each
attempt of the sub-parser). -/
def indexParser : Parser := ⟨indexFn, "<index>"⟩

/-- `_parse_dot`: any one element; `Unexpected EOF` at end of input.
Indexing past the end (`index > length`) raises `IndexError` in the
source, a non-`ParseError`, modelled as `.div`. -/
def dotFn : ParserFn := fun src i =>
  if i = src.length then .err ⟨computeLocation src i, "Unexpected EOF"⟩
  else
    match src.get? i with
    | some c => .ok (.char c) (i + 1)
    | none => .div

/-- The `dot` parser value. -/
def dot : Parser := ⟨dotFn, "."⟩

/-- `character(cls)`: any one element belonging to the container `cls`. -/
def characterFn (cls : List Char) : ParserFn := fun src i =>
  if i = src.length then .err ⟨computeLocation src i, "Unexpected EOF"⟩
  else
    match src.get? i with
    | some c =>
      if c ∈ cls then .ok (.char c) (i + 1)
      else .err ⟨computeLocation src i,
                 "Unexpected character, expected one of " ++ pyRepr (String.mk cls)⟩
    | none => .div

/-- The `character` constructor (display name `'[{}]'.format(repr(cls)[1:-1])`). -/
def characterParser (cls : List Char) : Parser :=
  ⟨characterFn cls, "[" ++ String.mk cls ++ "]"⟩

/-- `parse_literal`: exact subsequence match with optional normalization.
`source[index:next_index]` clamps at the end of the source, so a short
remainder yields a mismatch, never an EOF error; on success the canonical
`value` is returned (not the matched text) and the index advances by
`len(value)`. -/
def literalFn (value : String) (normalize : String → String) : ParserFn :=
  fun src i =>
    let nextIndex := i + value.length
    let mtch := String.mk ((src.take nextIndex).drop i)
    if normalize mtch = normalize value then .ok (.str value) nextIndex
    else .err ⟨computeLocation src i, "Expected " ++ pyRepr value⟩

/-- The `literal` constructor (display name `repr(value)`). -/
def literalParser (value : String) (normalize : String → String) : Parser :=
  ⟨literalFn value normalize, pyRepr value⟩

/-- Generator body of `error(message)`: `loc = yield location;
raise ParseError(loc, message)`. -/
def errorGen (message : String) : Gen :=
  .yield locationFn (fun v => .raiseE ⟨decodeLoc v, message⟩) reraise

/-- The `error` constructor: always fails with `message` at the current
location. -/
def errorParser (message : String) : Parser :=
  ⟨parserOf (errorGen message), "<error>"⟩

/-- Generator body of `either(a, b)`: `try: return (yield a)
except ParseError: return (yield b)` — only the first yield is guarded. -/
def eitherGen (a b : ParserFn) : Gen :=
  .yield a .stop (fun _ => .yield b .stop reraise)

/-- `either(a, b)` (display name `'({} / {})'`). -/
def eitherParser (a b : Parser) : Parser :=
  ⟨parserOf (eitherGen a.parse b.parse), "(" ++ a.pname ++ " / " ++ b.pname ++ ")"⟩

/-- Generator body of `then(a, b)`: run `a`, discard, run `b`, return
`b`'s value; neither yield catches failures. -/
def thenGen (a b : ParserFn) : Gen :=
  .yield a (fun _ => .yield b .stop reraise) reraise

/-- `then(a, b)` (right-sequencing). -/
def thenParser (a b : Parser) : Parser :=
  ⟨parserOf (thenGen a.parse b.parse), a.pname ++ " " ++ b.pname⟩

/-- Generator body of `followed_by(a, b)`: run `a`, keep its value, run
`b`, discard, return `a`'s value. -/
def followedByGen (a b : ParserFn) : Gen :=
  .yield a (fun v => .yield b (fun _ => .stop v) reraise) reraise

/-- `followed_by(a, b)` (left-sequencing). -/
def followedByParser (a b : Parser) : Parser :=
  ⟨parserOf (followedByGen a.parse b.parse), a.pname ++ " " ++ b.pname⟩

/-- Generator body of `optional(a, default)`: `try: return (yield a)
except ParseError: return default`. -/
def optionalGen (a : ParserFn) (dflt : Value) : Gen :=
  .yield a .stop (fun _ => .stop dflt)

/-- `optional(a, default=None)` (display name `'({})?'`). -/
def optionalParser (a : Parser) (dflt : Value) : Parser :=
  ⟨parserOf (optionalGen a.parse dflt), "(" ++ a.pname ++ ")?"⟩

/-- Message of the insufficient-repetitions error:
`'Not enough matches of {}'.format(a.parse.__name__)`. -/
def notEnoughMessage (name : String) : String := "Not enough matches of " ++ name

/-- The `while True` loop of `parse_replicated`, with an explicit fuel.
Each entry corresponds to one `idx = yield _index; submatch = yield a;
idx_prime = yield _index` round: a failure of `a` is swallowed and stops
the loop at the index where `a` was attempted; a successful zero-width
match is recorded and stops the loop (the epsilon guard); otherwise the
match is appended and the loop continues at the new index.  The Python
loop diverges when `a` keeps succeeding at ever-new indices; a run whose
indices stay within `[0, length]` and move forward performs at most
`length + 1 - start` entries, so the fuel `length + 1` used below is
sufficient for it, and running out of fuel (`none`) marks divergence. -/
def replicatedLoop (a : ParserFn) (src : Source) :
    Nat → Nat → List Value → Option (List Value × Nat)
  | 0, _, _ => none
  | fuel + 1, i, acc =>
    match a src i with
    | .err _ => some (acc, i)
    | .div => none
    | .ok v j =>
      if j = i then some (acc ++ [v], i)
      else replicatedLoop a src fuel j (acc ++ [v])

/-- `_replicated(a, operator, min_count)`: run the loop; if the number of
collected matches reaches `min_count`, succeed with the ordered list at
the stop index, otherwise yield `error('Not enough matches of ...')`,
whose `ParseError` at the stop index escapes the generator. -/
def replicatedParser (a : Parser) (op : String) (minCount : Nat) : Parser where
  parse := fun src i =>
    match replicatedLoop a.parse src (src.length + 1) i [] with
    | none => .div
    | some (ms, j) =>
      if minCount ≤ ms.length then .ok (.list ms) j
      else (errorParser (notEnoughMessage a.pname)).parse src j
  pname := "(" ++ a.pname ++ ")" ++ op

/-- The `star` property: zero-or-more. -/
def Parser.star (a : Parser) : Parser := replicatedParser a "*" 0

/-- The `plus` property: one-or-more. -/
def Parser.plus (a : Parser) : Parser := replicatedParser a "+" 1

/-- A step function that respects the spec's index data model over a given
source: from an in-range index, success commits to an in-range index and
never moves backwards ("how much has been consumed"). -/
def RespectsBounds (a : ParserFn) (src : Source) : Prop :=
  ∀ i v j, i ≤ src.length → a src i = .ok v j → i ≤ j ∧ j ≤ src.length

/-- A step function every invocation of which (from an in-range index)
terminates and produces a `ParseResult`. -/
def Terminates (a : ParserFn) (src : Source) : Prop :=
  ∀ i, i ≤ src.length → a src i ≠ .div

/-- The source string used by `src/tests/test_compute_location.py`. -/
def koalaSource : Source := "I am a koala\n\n  meow\n  meow".toList

/-- Sub-parser that moves the index backwards (still always within
`[0, length]`), used to probe the repetition combinators. -/
def backwards : Parser :=
  ⟨fun _ i => if i = 0 then .err ⟨(1, 1), "start"⟩ else .ok .null (i - 1), "bk"⟩

/-- Sub-parser that succeeds at every index, always advancing: under
`star` the Python loop never stops. -/
def advancing : Parser := ⟨fun _ i => .ok .null (i + 1), "adv"⟩

/-- A case-folding normalization (`lambda x: x.lower()` restricted to the
ASCII arguments the tests use). -/
def lowercase (s : String) : String := String.mk (s.toList.map Char.toLower)

/-! ## Lemmas about the embedding -/

/-- The `error(message)` parser fails with `message` at the current
location. -/
theorem errorParser_parse (m : String) (src : Source) (i : Nat) :
    (errorParser m).parse src i = .err ⟨computeLocation src i, m⟩ := rfl

/-- The accumulator of the replication loop is a pure prefix: running with
accumulator `acc` appends the matches collected from an empty
accumulator. -/
theorem replicatedLoop_append (a : ParserFn) (src : Source) :
    ∀ fuel i acc, replicatedLoop a src fuel i acc =
      (replicatedLoop a src fuel i []).map (fun r => (acc ++ r.1, r.2)) := by
  intro fuel
  induction fuel with
  | zero => intro i acc; rfl
  | succ f ih =>
    intro i acc
    cases h : a src i with
    | err e => simp [replicatedLoop, h]
    | div => simp [replicatedLoop, h]
    | ok v j =>
      by_cases hj : j = i
      · simp [replicatedLoop, h, hj]
      · simp only [replicatedLoop, h, if_neg hj, List.nil_append]
        rw [ih j (acc ++ [v]), ih j [v]]
        cases replicatedLoop a src f j [] with
        | none => rfl
        | some r => simp [List.append_assoc]

/-- A run of the replication loop that stops within its fuel is preserved
by any larger fuel. -/
theorem replicatedLoop_mono (a : ParserFn) (src : Source) :
    ∀ fuel fuel₂ i acc r, fuel ≤ fuel₂ →
      replicatedLoop a src fuel i acc = some r →
      replicatedLoop a src fuel₂ i acc = some r := by
  intro fuel
  induction fuel with
  | zero => intro fuel₂ i acc r _ h; exact absurd h (by simp [replicatedLoop])
  | succ f ih =>
    intro fuel₂ i acc r hle h
    obtain ⟨f₂, rfl⟩ : ∃ k, fuel₂ = k + 1 := ⟨fuel₂ - 1, by omega⟩
    cases ha : a src i with
    | err e => simp only [replicatedLoop, ha] at h ⊢; exact h
    | div => simp [replicatedLoop, ha] at h
    | ok v j =>
      by_cases hj : j = i
      · simp only [replicatedLoop, ha, if_pos hj] at h ⊢; exact h
      · simp only [replicatedLoop, ha, if_neg hj] at h ⊢
        exact ih f₂ j (acc ++ [v]) r (by omega) h

/-- For a sub-parser that respects the index data model and always
returns, the replication loop stops within fuel `length + 1 - start`,
with matches collected up to an in-range stop index not before the
start. -/
theorem replicatedLoop_total (a : ParserFn) (src : Source)
    (hb : RespectsBounds a src) (ht : Terminates a src) :
    ∀ fuel i, i ≤ src.length → src.length + 1 - i ≤ fuel →
      ∃ ms j, replicatedLoop a src fuel i [] = some (ms, j) ∧
        i ≤ j ∧ j ≤ src.length := by
  intro fuel
  induction fuel with
  | zero => intro i hi hf; exact absurd hf (by omega)
  | succ f ih =>
    intro i hi hf
    cases ha : a src i with
    | err e => exact ⟨[], i, by simp [replicatedLoop, ha], Nat.le_refl i, hi⟩
    | div => exact absurd ha (ht i hi)
    | ok v j =>
      obtain ⟨hij, hjl⟩ := hb i v j hi ha
      by_cases hj : j = i
      · exact ⟨[v], i, by simp [replicatedLoop, ha, hj], Nat.le_refl i, hi⟩
      · have hlt : i < j := Nat.lt_of_le_of_ne hij (fun hh => hj hh.symm)
        obtain ⟨ms, k, hk, hjk, hkl⟩ := ih j hjl (by omega)
        refine ⟨v :: ms, k, ?_, by omega, hkl⟩
        simp only [replicatedLoop, ha, if_neg hj, List.nil_append]
        rw [replicatedLoop_append a src f j [v], hk]
        rfl

/-- Closed form of the location scan: the line is one plus the number of
newlines scanned; the column counts the elements after the last scanned
newline, plus one when a newline was scanned at all. -/
theorem locScan_eq (cs : List Char) :
    locScan cs =
      (1 + (cs.filter (fun c => c = '\n')).length,
       if '\n' ∈ cs
       then (cs.reverse.takeWhile (fun c => c ≠ '\n')).length + 1
       else cs.length) := by
  induction cs using List.reverseRecOn with
  | nil => simp [locScan]
  | append_singleton xs c ih =>
    have hfold : locScan (xs ++ [c]) = locStep (locScan xs) c := by
      simp only [locScan]
      rw [List.foldl_append]
      rfl
    rw [hfold, ih]
    by_cases hc : c = '\n'
    · subst hc
      simp [locStep, List.reverse_append, List.takeWhile_cons]
      omega
    · have hcb : (c = '\n') = False := by simp [hc]
      simp only [locStep, List.filter_append, List.reverse_append,
        List.mem_append, List.mem_singleton, hc, if_neg hc]
      by_cases hm : '\n' ∈ xs
      · simp [hm, hc, List.takeWhile_cons, hcb, Ne.symm hc]
      · simp [hm, hc, List.takeWhile_cons, hcb, Ne.symm hc]

/-- `dot` respects the index data model: it consumes exactly one element
and stays in range. -/
theorem dot_respectsBounds (src : Source) : RespectsBounds dotFn src := by
  intro i v j hi h
  by_cases he : i = src.length
  · simp [dotFn, he] at h
  · have hlt : i < src.length := by omega
    simp only [dotFn, if_neg he] at h
    split at h
    · injection h with h1 h2
      omega
    · exact absurd h (by simp)

/-- `dot` always produces a `ParseResult` from an in-range index. -/
theorem dot_terminates (src : Source) : Terminates dotFn src := by
  intro i hi h
  by_cases he : i = src.length
  · simp [dotFn, he] at h
  · have hlt : i < src.length := by omega
    simp only [dotFn, if_neg he] at h
    split at h
    · exact absurd h (by simp)
    · next hg => exact absurd (List.get?_eq_none.mp hg) (by omega)

/-! ## Claim theorems -/

/-- C1: `either(a, b)` first attempts `a` at the given index; if `a`
succeeds, `a`'s result (value and new index) is the overall result; if
`a` fails, `b` is attempted at the same original index (the failed
attempt never advanced it) and `b`'s outcome, success or failure, becomes
the overall outcome. -/
theorem either_spec (a b : Parser) (src : Source) (i : Nat) :
    (∀ v j, a.parse src i = .ok v j →
      (eitherParser a b).parse src i = .ok v j) ∧
    (∀ e, a.parse src i = .err e →
      (eitherParser a b).parse src i = b.parse src i) := by
  constructor
  · intro v j h
    simp [eitherParser, parserOf, eitherGen, runGen, h]
  · intro e h
    simp only [eitherParser, parserOf, eitherGen, runGen, h]
    cases hb : b.parse src i <;> simp [runGen, reraise, hb]

/-- Witness for C1: with `a` failing on source `"4"`, `either(a, b)`
produces exactly `b`'s outcome at index 0. -/
theorem either_spec_witness :
    (eitherParser (characterParser "123".toList)
        (characterParser "456".toList)).parse ['4'] 0 =
      (characterParser "456".toList).parse ['4'] 0 :=
  (either_spec (characterParser "123".toList)
      (characterParser "456".toList) ['4'] 0).2
    ⟨(1, 1), "Unexpected character, expected one of '123'"⟩ rfl

/-- C2: `execute(p, s)` runs `p` at index 0; a failure propagates
unchanged; success consuming the whole source returns the value; success
stopping at `j ≠ length(s)` raises the residue failure located at `j`
with a message naming the unconsumed remainder. -/
theorem execute_spec (p : Parser) (src : Source) :
    (∀ e, p.parse src 0 = .err e → execute p src = .raised e) ∧
    (∀ v, p.parse src 0 = .ok v src.length → execute p src = .value v) ∧
    (∀ v j, p.parse src 0 = .ok v j → j ≠ src.length →
      execute p src = .raised ⟨computeLocation src j, residueMessage src j⟩) := by
  refine ⟨fun e h => ?_, fun v h => ?_, fun v j h hj => ?_⟩
  · simp [execute, h]
  · simp [execute, h]
  · simp [execute, h, hj]

/-- Witness for C2: `dot` on `"ab"` consumes one element, and `execute`
raises the residue failure at index 1 = (1,2), naming `'b'`. -/
theorem execute_spec_witness :
    execute dot ['a', 'b'] = .raised ⟨(1, 2), "Partial parse, residue is 'b'"⟩ :=
  (execute_spec dot ['a', 'b']).2.2 (.char 'a') 1 rfl (by decide)

/-- C3: `star(a)` and `plus(a)` attempt `a` repeatedly, collecting values
in encounter order; a failure of `a` is swallowed and stops the loop at
the index where `a` was attempted; an advancing success conses its value
onto the matches collected from the new index; after stopping, a
collection reaching the minimum count (0 for star, 1 for plus) succeeds
with the ordered list, and otherwise fails with the "not enough matches"
error at the stop position naming the sub-parser.  Concretely,
`star(dot)` on `"123"` yields `["1","2","3"]`, on `""` yields `[]`, and
`plus(dot)` on `""` raises the insufficient-repetitions error. -/
theorem replication_spec (a : Parser) (src : Source) (i : Nat)
    (hb : RespectsBounds a.parse src) (ht : Terminates a.parse src)
    (hi : i ≤ src.length) :
    (∀ e, a.parse src i = .err e →
      a.star.parse src i = .ok (.list []) i ∧
      a.plus.parse src i = .err ⟨computeLocation src i, notEnoughMessage a.pname⟩) ∧
    (∀ v j, a.parse src i = .ok v j → j ≠ i →
      ∃ ms k, a.star.parse src j = .ok (.list ms) k ∧
        a.star.parse src i = .ok (.list (v :: ms)) k ∧
        a.plus.parse src i = .ok (.list (v :: ms)) k ∧
        j ≤ k ∧ k ≤ src.length) ∧
    execute dot.star "123".toList = .value (.list [.char '1', .char '2', .char '3']) ∧
    execute dot.star [] = .value (.list []) ∧
    execute dot.plus [] = .raised ⟨(1, 1), notEnoughMessage "."⟩ := by
  refine ⟨fun e h => ?_, fun v j h hj => ?_, rfl, rfl, rfl⟩
  · constructor
    · simp [Parser.star, replicatedParser, replicatedLoop, h]
    · simp [Parser.plus, replicatedParser, replicatedLoop, h, errorParser_parse]
  · obtain ⟨hij, hjl⟩ := hb i v j hi h
    have hlt : i < j := Nat.lt_of_le_of_ne hij (fun hh => hj hh.symm)
    obtain ⟨ms, k, hk, hjk, hkl⟩ :=
      replicatedLoop_total a.parse src hb ht src.length j hjl (by omega)
    have hkk : replicatedLoop a.parse src (src.length + 1) j [] = some (ms, k) :=
      replicatedLoop_mono a.parse src src.length (src.length + 1) j [] (ms, k)
        (by omega) hk
    have hcons : replicatedLoop a.parse src (src.length + 1) i [] =
        some (v :: ms, k) := by
      simp only [replicatedLoop, h, if_neg hj, List.nil_append]
      rw [replicatedLoop_append a.parse src src.length j [v], hk]
      rfl
    refine ⟨ms, k, ?_, ?_, ?_, hjk, hkl⟩
    · simp [Parser.star, replicatedParser, hkk]
    · simp [Parser.star, replicatedParser, hcons]
    · simp [Parser.plus, replicatedParser, hcons]

/-- Witness for C3 at the sub-parser `dot` (which respects the index model
and always returns) on the source `"123"`. -/
theorem replication_spec_witness :
    execute dot.star "123".toList = .value (.list [.char '1', .char '2', .char '3']) :=
  (replication_spec dot "123".toList 0 (dot_respectsBounds _) (dot_terminates _)
    (Nat.zero_le _)).2.2.1

/-- C4: a sub-parser that succeeds at an index without advancing it stops
`star` and `plus` immediately after that single recorded match (the
epsilon guard), instead of looping forever. -/
theorem epsilon_guard (a : Parser) (src : Source) (i : Nat) (v : Value)
    (h : a.parse src i = .ok v i) :
    a.star.parse src i = .ok (.list [v]) i ∧
    a.plus.parse src i = .ok (.list [v]) i := by
  have hl : replicatedLoop a.parse src (src.length + 1) i [] = some ([v], i) := by
    simp [replicatedLoop, h]
  constructor
  · simp [Parser.star, replicatedParser, hl]
  · simp [Parser.plus, replicatedParser, hl]

/-- Witness for C4: the zero-width `location` parser under `star` and
`plus` on the empty source records exactly one match. -/
theorem epsilon_guard_witness :
    location.star.parse [] 0 = .ok (.list [.pair (.nat 1) (.nat 1)]) 0 ∧
    location.plus.parse [] 0 = .ok (.list [.pair (.nat 1) (.nat 1)]) 0 :=
  epsilon_guard location [] 0 (.pair (.nat 1) (.nat 1)) rfl

/-- C5: in a sequence built with the `parser` decorator, a failing yielded
step whose yield is not wrapped in `try`/`except ParseError` (handler
`reraise`) makes the whole sequence fail with that sub-parser's error
(first conjunct); any handler resumes at the unchanged index, so the
failed step contributes no index advance to the invoking context (second
conjunct); and a successful step resumes the continuation at the advanced
index, so input consumed by prior successful steps is not rolled back by
the sequence itself (third conjunct). -/
theorem sequence_failure (src : Source) (i : Nat) :
    (∀ (p : ParserFn) (k : Value → Gen) (e : PError),
      p src i = .err e → runGen src (.yield p k reraise) i = .err e) ∧
    (∀ (p : ParserFn) (k : Value → Gen) (hndl : PError → Gen) (e : PError),
      p src i = .err e →
        runGen src (.yield p k hndl) i = runGen src (hndl e) i) ∧
    (∀ (p : ParserFn) (k : Value → Gen) (v : Value) (j : Nat),
      p src i = .ok v j →
        runGen src (.yield p k reraise) i = runGen src (k v) j) := by
  refine ⟨fun p k e h => ?_, fun p k hndl e h => ?_, fun p k v j h => ?_⟩
  · simp [runGen, h, reraise]
  · simp [runGen, h]
  · simp [runGen, h]

/-- Witness for C5: `dot` failing on the empty source inside an unguarded
sequence makes the sequence fail with `dot`'s EOF error. -/
theorem sequence_failure_witness :
    runGen [] (.yield dotFn .stop reraise) 0 = .err ⟨(1, 1), "Unexpected EOF"⟩ :=
  (sequence_failure [] 0).1 dotFn .stop ⟨(1, 1), "Unexpected EOF"⟩ rfl

/-- Counterexample to C6: the claim's formula ("one plus the number of
newlines strictly before the index; column counts elements since the last
newline plus one") gives `(1, 13)` at index 12 of the koala source and
`(2, 1)` at index 13, while the resolver — as pinned by the repository's
own tests `test_second_line` and `test_third_line` in
`src/tests/test_compute_location.py` — returns `(2, 1)` and `(3, 1)`
there: the claimed "first index past the first newline maps to (2, 1)" is
false. -/
theorem location_claim_counterexample :
    resolveClaimFormula koalaSource 12 = (1, 13) ∧
    computeLocation koalaSource 12 = (2, 1) ∧
    resolveClaimFormula koalaSource 13 = (2, 1) ∧
    computeLocation koalaSource 13 = (3, 1) ∧
    ((1, 13) : Loc) ≠ (2, 1) ∧ ((3, 1) : Loc) ≠ (2, 1) :=
  ⟨by decide, by decide, by decide, by decide, by decide, by decide⟩

/-- C6 (amended): the resolver treats a newline element as column 1 of the
line it opens: for an index inside the source, the line is one plus the
number of newlines among the first `index + 1` elements and the column
counts the elements after the last of those newlines plus one (or
`index + 1` when no newline precedes); the EOF index maps to line count
plus one at column 1; in particular on the koala source index 0 maps to
(1,1), the first index past the first newline maps to (3,1) (that element
is itself the second newline), and the EOF index 27 maps to (5,1) = line
count 4 plus one at column 1. -/
theorem location_resolution (src : Source) (i : Nat) (h : i < src.length) :
    computeLocation src i =
      (1 + ((src.take (i + 1)).filter (fun c => c = '\n')).length,
       if '\n' ∈ src.take (i + 1)
       then ((src.take (i + 1)).reverse.takeWhile (fun c => c ≠ '\n')).length + 1
       else i + 1) ∧
    computeLocation src src.length = (lineCount src + 1, 1) ∧
    computeLocation koalaSource 0 = (1, 1) ∧
    computeLocation koalaSource 13 = (3, 1) ∧
    computeLocation koalaSource 27 = (5, 1) ∧
    lineCount koalaSource = 4 := by
  refine ⟨?_, by simp [computeLocation], by decide, by decide, by decide, by decide⟩
  have hne : i ≠ src.length := by omega
  have hl : (src.take (i + 1)).length = i + 1 := by
    rw [List.length_take]; omega
  simp only [computeLocation, if_neg hne, locScan_eq, hl]

/-- Witness for C6 (amended), instantiated at index 13 of the koala
source. -/
theorem location_resolution_witness :
    computeLocation koalaSource 13 =
      (1 + ((koalaSource.take 14).filter (fun c => c = '\n')).length,
       if '\n' ∈ koalaSource.take 14
       then ((koalaSource.take 14).reverse.takeWhile (fun c => c ≠ '\n')).length + 1
       else 14) :=
  (location_resolution koalaSource 13 (by decide)).1

/-- C7: `literal(value, normalize)` succeeds exactly when the normalized
clamped slice of length `len(value)` at the index equals the normalized
value, in which case it returns the canonical `value` (not the matched
text) and advances by `len(value)`; otherwise it fails with the
literal-mismatch error at the start index.  Concretely
`literal("horse")` accepts `"horse"`, rejects `"hors"`, and with
case-folding normalization accepts `"HorSE"` returning `"horse"`. -/
theorem literal_spec (value : String) (normalize : String → String)
    (src : Source) (i : Nat) :
    ((literalParser value normalize).parse src i =
        .ok (.str value) (i + value.length) ↔
      normalize (String.mk ((src.take (i + value.length)).drop i)) =
        normalize value) ∧
    (normalize (String.mk ((src.take (i + value.length)).drop i)) ≠
        normalize value →
      (literalParser value normalize).parse src i =
        .err ⟨computeLocation src i, "Expected " ++ pyRepr value⟩) ∧
    execute (literalParser "horse" id) "horse".toList = .value (.str "horse") ∧
    execute (literalParser "horse" id) "hors".toList =
      .raised ⟨(1, 1), "Expected 'horse'"⟩ ∧
    execute (literalParser "horse" lowercase) "HorSE".toList =
      .value (.str "horse") := by
  refine ⟨⟨fun h => ?_, fun he => ?_⟩, fun hne => ?_, rfl, rfl, rfl⟩
  · by_contra hne
    simp [literalParser, literalFn, hne] at h
  · simp [literalParser, literalFn, he]
  · simp [literalParser, literalFn, hne]

/-- Witness for C7: the success case of `literal("horse")` at the source
`"horse"`. -/
theorem literal_spec_witness :
    (literalParser "horse" id).parse "horse".toList 0 =
      .ok (.str "horse") (0 + "horse".length) :=
  (literal_spec "horse" id "horse".toList 0).1.mpr rfl

/-- C8: a parser's step function, invoked twice on the same source and
index, yields the same ParseResult — parsing is deterministic, with no
observable mutable state across invocations (every parser in this
embedding is a pure function of `(source, index)`, matching the Python
code, which creates a fresh generator per invocation and closes over no
mutable state). -/
theorem parse_deterministic (p : Parser) (src : Source) (i : Nat)
    (r₁ r₂ : PResult) (h₁ : p.parse src i = r₁) (h₂ : p.parse src i = r₂) :
    r₁ = r₂ :=
  h₁.symm.trans h₂

/-- Witness for C8: two invocations of `dot` on `"a"` at index 0 agree. -/
theorem parse_deterministic_witness :
    PResult.ok (.char 'a') 1 = dot.parse ['a'] 0 :=
  parse_deterministic dot ['a'] 0 (.ok (.char 'a') 1) (dot.parse ['a'] 0) rfl rfl

/-- Counterexample to C9: quantified over every parser, the claim fails.
A terminating sub-parser that moves the index backwards makes `star`
succeed at an index below the start (here: start 2, final index 0), so
the claimed "new index greater than or equal to the start index" is
false; and a sub-parser succeeding at every index with an ever-larger
index makes the loop run forever (the fuel marker `.div`), so the claimed
"always succeeds" fails as well. -/
theorem star_counterexample :
    backwards.star.parse "ab".toList 2 = .ok (.list [.null, .null]) 0 ∧
    ¬ ((2 : Nat) ≤ 0) ∧
    advancing.star.parse [] 0 = .div :=
  ⟨rfl, by decide, rfl⟩

/-- C9 (amended): for a sub-parser whose step function always returns and
respects the index data model (success from an in-range index commits to
an in-range index not before it), `star` never fails: from any in-range
start index it succeeds with a (possibly empty) list of matches and a new
index between the start index and the length. -/
theorem star_total (a : Parser) (src : Source) (i : Nat)
    (hb : RespectsBounds a.parse src) (ht : Terminates a.parse src)
    (hi : i ≤ src.length) :
    ∃ ms j, a.star.parse src i = .ok (.list ms) j ∧ i ≤ j ∧ j ≤ src.length := by
  obtain ⟨ms, j, hl, hij, hjl⟩ :=
    replicatedLoop_total a.parse src hb ht (src.length + 1) i hi (by omega)
  exact ⟨ms, j, by simp [Parser.star, replicatedParser, hl], hij, hjl⟩

/-- Witness for C9 (amended) at `dot` on the source `"a"`. -/
theorem star_total_witness :
    ∃ ms j, dot.star.parse "a".toList 0 = .ok (.list ms) j ∧
      0 ≤ j ∧ j ≤ ("a".toList).length :=
  star_total dot "a".toList 0 (dot_respectsBounds _) (dot_terminates _)
    (Nat.zero_le _)

/-- C10: with identity normalization, when fewer than `len(value)`
elements remain after the index, `literal(value)` fails with the
literal-mismatch error at the start index — the slice is clamped rather
than bounds-checked, so no unexpected-EOF error is ever raised; in
particular `literal("horse")` on the empty source raises the mismatch
error. -/
theorem literal_clamped (value : String) (src : Source) (i : Nat)
    (h : src.length - i < value.length) :
    (literalParser value id).parse src i =
      .err ⟨computeLocation src i, "Expected " ++ pyRepr value⟩ ∧
    execute (literalParser "horse" id) [] =
      .raised ⟨(1, 1), "Expected 'horse'"⟩ := by
  refine ⟨?_, rfl⟩
  have hlen : ((src.take (i + value.length)).drop i).length < value.length := by
    rw [List.length_drop, List.length_take]
    omega
  have hne : String.mk ((src.take (i + value.length)).drop i) ≠ value := by
    intro he
    have hd : (src.take (i + value.length)).drop i = value.data :=
      congrArg String.data he
    have hvl : value.data.length = value.length := rfl
    rw [hd, hvl] at hlen
    omega
  simp [literalParser, literalFn, hne]

/-- Witness for C10: `literal("horse")` at the one-element source `"h"`
fails with the mismatch error at the start. -/
theorem literal_clamped_witness :
    (literalParser "horse" id).parse ['h'] 0 =
      .err ⟨(1, 1), "Expected 'horse'"⟩ :=
  (literal_clamped "horse" ['h'] 0 (by decide)).1

end Gobble
